import Mathlib

/-!
Shallow embedding of the cothority networking layer (`lib/network/net.go`)
and the simulation driver loop (`simul/cothority/cothority.go`), with
theorems settling the behavioural claims about them.

Conventions: Go `error` values are modelled by `GoError`; the network is
modelled by explicit oracles (a dial oracle `Nat → Bool` or
`String → Bool`, a negotiation environment recording what send/receive
return); machine state (closed flags, peer maps as association lists) is
passed explicitly.
-/

/-- Model of the Go error values that `net.go` manipulates: `io.EOF`, plain
`errors.New`/`fmt.Errorf` strings, and `net.Error` values carrying the
`Temporary`/`Timeout` predicates. -/
inductive GoError where
  | ioEOF : GoError
  | str : String → GoError
  | netError : String → Bool → Bool → GoError
deriving DecidableEq

/-- The `Error()` string of a modelled Go error. -/
def GoError.message : GoError → String
  | .ioEOF => "EOF"
  | .str s => s
  | .netError m _ _ => m

def ErrClosed : GoError := .str "Connection Closed"

def ErrEOF : GoError := .str "EOF"

def ErrCanceled : GoError := .str "Operation Canceled"

def ErrTemp : GoError := .str "Temporary Error"

def ErrTimeout : GoError := .str "Timeout Error"

def ErrUnknown : GoError := .str "Unknown Error"

/-- Go's `strings.Contains`. -/
def strContains (s sub : String) : Bool := decide (sub.data <:+: s.data)

/-- `handleError` from net.go: classify an underlying error into the
package-level error taxonomy. -/
def handleError (e : GoError) : GoError :=
  if strContains e.message "use of closed" then ErrClosed
  else if strContains e.message "canceled" then ErrCanceled
  else if e = .ioEOF || strContains e.message "EOF" then ErrEOF
  else
    match e with
    | .netError _ temp tmo => if temp then ErrTemp else if tmo then ErrTimeout else ErrUnknown
    | _ => ErrUnknown

/-- `maxRetry` from net.go. -/
def maxRetry : Nat := 10

/-- One observable event of the `openTcpConn` retry loop: a `net.Dial`
attempt (numbered from 0) or one `time.Sleep(waitRetry)` of 1 second. -/
inductive DialEvent where
  | attempt : Nat → DialEvent
  | sleepSecond : DialEvent
deriving DecidableEq

/-- The event trace of the retry loop in `TcpHost.openTcpConn`, driven by a
dial oracle telling whether attempt `i` succeeds. The loop body is:
`net.Dial`; on error `time.Sleep(waitRetry)` else `break`; then another
`time.Sleep(waitRetry)` at the end of the body, so a failed attempt is
followed by two one-second sleeps. -/
def openTcpConnTrace (dial : Nat → Bool) : Nat → Nat → List DialEvent
  | 0, _ => []
  | fuel + 1, i =>
    if dial i then [.attempt i]
    else .attempt i :: .sleepSecond :: .sleepSecond :: openTcpConnTrace dial fuel (i + 1)

/-- The result of the retry loop in `TcpHost.openTcpConn`: the index of the
first successful attempt, or `none` when every attempt failed (then
`conn == nil` holds after the loop and the function returns the
`Could not connect` error). -/
def openTcpConnLoop (dial : Nat → Bool) : Nat → Nat → Option Nat
  | 0, _ => none
  | fuel + 1, i => if dial i then some i else openTcpConnLoop dial fuel (i + 1)

/-- `TcpHost.openTcpConn`: run the retry loop with `maxRetry` attempts,
returning the successful attempt (if any) and the event trace. -/
def openTcpConn (dial : Nat → Bool) : Option Nat × List DialEvent :=
  (openTcpConnLoop dial maxRetry 0, openTcpConnTrace dial maxRetry 0)

/-- Number of dial attempts in a trace. -/
def countAttempts (l : List DialEvent) : Nat :=
  l.countP fun e => match e with | .attempt _ => true | _ => false

/-- Number of one-second sleeps in a trace. -/
def countSleeps (l : List DialEvent) : Nat :=
  l.countP fun e => match e with | .sleepSecond => true | _ => false

/-- The Count retry loop of `simul/cothority/cothority.go` `main`: state is
the round number and current timeout (milliseconds); each round runs the
Count protocol and reads a count from the round oracle; on
`count == tree.Size()` the loop stops, otherwise it loops; the timeout is
doubled after every round. Fuel bounds the modelled execution; `none`
means the loop was still running after `fuel` rounds. On exit it returns
the number of rounds executed and the timeout variable after the loop. -/
def countLoop (counts : Nat → Nat) (treeSize : Nat) : Nat → Nat → Nat → Option (Nat × Nat)
  | 0, _, _ => none
  | fuel + 1, round, timeout =>
    if counts round = treeSize then some (round + 1, timeout * 2)
    else countLoop counts treeSize fuel (round + 1) (timeout * 2)

/-- The children-counting phase of `main`: the loop starts at round 0 with
`timeout := 1000`. -/
def countChildren (counts : Nat → Nat) (treeSize fuel : Nat) : Option (Nat × Nat) :=
  countLoop counts treeSize fuel 0 1000

/-- `Identity` from net.go: the id derived from the public key (modelled as
an opaque `Nat`), the ordered address list, and the private iteration
cursor `iter` used by `Next`. -/
structure Identity where
  id : Nat
  addresses : List String
  iter : Nat := 0
deriving DecidableEq

/-- `Identity.First`: the first address when the list is non-empty, the
empty string otherwise. -/
def Identity.first (i : Identity) : String :=
  if h : 0 < i.addresses.length then i.addresses.get ⟨0, h⟩ else ""

/-- `Identity.Next`: when `len(Addresses) < iter+1` return the empty string
without touching the cursor; otherwise return `Addresses[iter]` and advance
the cursor. Returns the address together with the updated identity. -/
def Identity.next (i : Identity) : String × Identity :=
  if h : i.addresses.length < i.iter + 1 then ("", i)
  else (i.addresses.get ⟨i.iter, by omega⟩, { i with iter := i.iter + 1 })

/-- The string returned by the `(k+1)`-th call of `Next`, starting from `i`
and threading the cursor through the calls. -/
def nextCalls (i : Identity) : Nat → String × Identity
  | 0 => i.next
  | k + 1 => (nextCalls i k).2.next

/-- Message type identifiers of the wire envelope; `identityType` is the
registered type of the `Identity` message. -/
inductive MsgTypeId where
  | identityType : MsgTypeId
  | other : Nat → MsgTypeId
deriving DecidableEq

/-- A decoded wire envelope (`ApplicationMessage`): its type id, the decoded
`Identity` payload (meaningful when `msgType = identityType`, matching the
Go type assertion `nm.Msg.(Identity)` that is guarded by the type check),
and the `From` address filled in by `Receive`. -/
structure ApplicationMessage where
  msgType : MsgTypeId
  identityMsg : Identity
  fromAddr : String := ""
deriving DecidableEq

/-- What the transport does during one identity negotiation: the result of
sending our `Identity` (`none` = success) and the result of the subsequent
`Receive`. -/
structure NegotiationEnv where
  sendErr : Option GoError
  recv : Except GoError ApplicationMessage

/-- `SecureTcpConn.negotiateListen`: send the host identity, receive the
remote identity, require the received message type to be `identityType`;
on success return the remote identity that gets stored in `sc.identity`. -/
def negotiateListen (hostId : Identity) (env : NegotiationEnv) : Except String Identity :=
  match env.sendErr with
  | some _ => .error "Error while sending indentity during negotiation"
  | none =>
    match env.recv with
    | .error _ => .error "Error while receiving identity during negotiation"
    | .ok nm =>
      if nm.msgType ≠ .identityType then .error "Received wrong type during negotiation"
      else .ok nm.identityMsg

/-- What the receiver installed by `SecureTcpHost.Listen` does with one
accepted connection: whether the caller-supplied handler `fn` was invoked,
whether the connection was closed, and the identity stored on success. -/
structure ListenOutcome where
  fnInvoked : Bool
  connClosed : Bool
  negotiatedIdentity : Option Identity
deriving DecidableEq

/-- The `receiver` closure of `SecureTcpHost.Listen`: run `negotiateListen`;
on error close the connection and return without invoking `fn`; on success
hand the secured connection to `fn`. -/
def secureListenReceiver (hostId : Identity) (env : NegotiationEnv) : ListenOutcome :=
  match negotiateListen hostId env with
  | .error _ => ⟨false, true, none⟩
  | .ok i => ⟨true, false, some i⟩

/-- `SecureTcpConn.negotiateOpen`: run `negotiateListen`, then require the
received identity's id to equal the id of the identity being dialed. -/
def negotiateOpen (hostId : Identity) (env : NegotiationEnv) (id : Identity) :
    Except String Identity :=
  match negotiateListen hostId env with
  | .error e => .error e
  | .ok received =>
    if received.id ≠ id.id then .error "Identity received during negotiation is wrong. WARNING"
    else .ok received

/-- The address loop of `SecureTcpHost.Open`: try `openTcpConn` on each
address in list order and keep the first one that connects. The dial oracle
says whether `openTcpConn` succeeds on a given address. -/
def firstDialableAddress (dial : String → Bool) : List String → Option String
  | [] => none
  | a :: rest => if dial a then some a else firstDialableAddress dial rest

/-- Observable outcome of `SecureTcpHost.Open`: whether a (non-nil)
connection value was returned to the caller, whether that connection was
closed before returning, and the returned error. -/
structure SecureOpenResult where
  connReturned : Bool
  connClosed : Bool
  err : Option String
deriving DecidableEq

/-- `SecureTcpHost.Open`: try every address of `id` in order, skipping dial
failures; if none connects return the dial-failure error with no
connection; otherwise build the secure connection and return it together
with the result of `negotiateOpen` — on negotiation failure the connection
is returned (unclosed) alongside the non-nil error. -/
def secureOpen (hostId : Identity) (dial : String → Bool) (env : NegotiationEnv)
    (id : Identity) : SecureOpenResult :=
  match firstDialableAddress dial id.addresses with
  | none => ⟨false, false, some "Could not connect to any address tied to this identity"⟩
  | some _ =>
    match negotiateOpen hostId env id with
    | .error e => ⟨true, false, some e⟩
    | .ok _ => ⟨true, false, none⟩

/-- Outcome of `ApplicationMessage.UnmarshalBinary` on a received buffer.
Modelled from the spec: the unmarshalling routine itself is outside these
sources; per the spec it returns an `UnmarshalFailure` error on an unknown
type id or a malformed payload, and a fault raised inside decode is a Go
panic. The oracle maps the received bytes to one of those outcomes. -/
inductive DecodeOutcome where
  | ok : ApplicationMessage → DecodeOutcome
  | err : String → DecodeOutcome
  | panicked : String → DecodeOutcome

/-- State of a `TcpConn` that the claims observe: its closed flag. -/
structure TcpConnState where
  closed : Bool
deriving DecidableEq

/-- What one call of `TcpConn.Receive` returns and leaves behind: the
message handed to the caller (`none` models the zero-value
`EmptyApplicationMessage` / zero `ApplicationMessage`), the error handed to
the caller, and the connection state afterwards. -/
structure ReceiveResult where
  msg : Option ApplicationMessage
  err : Option GoError
  connAfter : TcpConnState
deriving DecidableEq

/-- `TcpConn.Receive`: on a read error return `EmptyApplicationMessage` with
the classified error; otherwise unmarshal the buffer: an unmarshal error is
wrapped in an `Error unmarshaling message` error; a panic inside the
unmarshalling is caught by the deferred `recover`, which only prints — the
function then finishes returning its zero-valued results, i.e. a zero
message and a nil error. On success the message is returned with `From`
set to the remote address and a nil error. The connection state is never
touched. -/
def tcpConnReceive (c : TcpConnState) (readResult : Except GoError (List Nat))
    (decode : List Nat → DecodeOutcome) (remote : String) : ReceiveResult :=
  match readResult with
  | .error e => ⟨none, some (handleError e), c⟩
  | .ok buf =>
    match decode buf with
    | .ok am => ⟨some { am with fromAddr := remote }, none, c⟩
    | .err s => ⟨none, some (.str ("Error unmarshaling message type: " ++ s)), c⟩
    | .panicked _ => ⟨none, none, c⟩

/-- State of a `TcpConn` as the close paths see it: the closed flag and the
result the underlying `net.Conn.Close()` would return. -/
structure ConnModel where
  closed : Bool
  closeErr : Option GoError
deriving DecidableEq

/-- `TcpConn.Close`: a second close returns nil immediately; otherwise close
the underlying connection, set the closed flag (even on error), and return
the classified error if any. -/
def tcpConnClose (c : ConnModel) : ConnModel × Option GoError :=
  if c.closed then (c, none)
  else
    match c.closeErr with
    | some e => ({ c with closed := true }, some (handleError e))
    | none => ({ c with closed := true }, none)

/-- State of a `TcpHost` as `Close` sees it: the closed flag, the tracked
connections of the `peers` map, whether the `quit` channel has been closed,
and the listener (present or not, closed or not, and the error its
`Close()` would return). -/
structure HostModel where
  closed : Bool
  peers : List ConnModel
  quitClosed : Bool
  hasListener : Bool
  listenerClosed : Bool
  listenerCloseErr : Option GoError
deriving DecidableEq

/-- The `for _, c := range t.peers` loop of `TcpHost.Close`: close each
connection in turn; the first connection whose close errors makes the whole
`Close` return `handleError(err)` at once, leaving the remaining
connections untouched. -/
def closePeers : List ConnModel → List ConnModel × Option GoError
  | [] => ([], none)
  | c :: rest =>
    match tcpConnClose c with
    | (c2, some e) => (c2 :: rest, some (handleError e))
    | (c2, none) =>
      let r := closePeers rest
      (c2 :: r.1, r.2)

/-- `TcpHost.Close`: return nil if already closed; else set the closed flag,
close every tracked connection (returning early on the first error), then
close the `quit` channel, and finally close the listener if there is one,
returning its close result. -/
def tcpHostClose (h : HostModel) : HostModel × Option GoError :=
  if h.closed then (h, none)
  else
    match closePeers h.peers with
    | (peers2, some e) => ({ h with closed := true, peers := peers2 }, some e)
    | (peers2, none) =>
      if h.hasListener then
        ({ h with closed := true, peers := peers2, quitClosed := true, listenerClosed := true },
          h.listenerCloseErr)
      else ({ h with closed := true, peers := peers2, quitClosed := true }, none)

/-- Which tree the driver hands to the CloseAll protocol. -/
inductive TreeChoice where
  | workingTree : TreeChoice
  | rebuiltFromRoster : TreeChoice
deriving DecidableEq

/-- Observable outcome of the shutdown section of `main` in
`simul/cothority/cothority.go`. -/
structure CloseAllSetup where
  closeTree : TreeChoice
  aliasErrorLogged : Bool
  aborted : Bool
deriving DecidableEq

/-- The shutdown section of `main`: when `Tree.UsesList()` is false an error
is logged (nothing more); `closeTree` starts as the working tree and is
replaced by a tree rebuilt from the Roster exactly when the `SingleHost`
configuration flag is set; then CloseAll is created on `closeTree`, and a
creation error aborts the run via `log.Fatal` (checked after `pi.Start()`
was already invoked). Inputs are the oracles `Tree.UsesList()`,
`GetSingleHost()` and whether `CreateProtocolSDA` errors. -/
def closeAllSetup (usesList singleHost createErr : Bool) : CloseAllSetup :=
  { aliasErrorLogged := !usesList
    closeTree := if singleHost then .rebuiltFromRoster else .workingTree
    aborted := createErr }

theorem getD_len_le (l : List String) (n : Nat) (h : l.length ≤ n) : l.getD n "" = "" := by
  rw [List.getD_eq_getElem?_getD, List.getElem?_eq_none h]
  rfl

theorem Identity.first_eq (i : Identity) : i.first = i.addresses.getD 0 "" := by
  unfold Identity.first
  split
  · next h =>
    rw [List.getD_eq_getElem?_getD, List.getElem?_eq_getElem h, List.get_eq_getElem]
    rfl
  · next h => rw [getD_len_le _ _ (by omega)]

theorem Identity.next_eq (i : Identity) :
    i.next = (i.addresses.getD i.iter "",
      if i.iter < i.addresses.length then { i with iter := i.iter + 1 } else i) := by
  unfold Identity.next
  split
  · next h =>
    rw [if_neg (by omega), getD_len_le _ _ (by omega)]
  · next h =>
    rw [if_pos (by omega), List.getD_eq_getElem?_getD, List.getElem?_eq_getElem (by omega),
      List.get_eq_getElem]
    rfl

theorem nextCalls_spec (i : Identity) (h0 : i.iter = 0) (k : Nat) :
    (nextCalls i k).1 = i.addresses.getD k "" ∧
    (nextCalls i k).2 = { i with iter := min (k + 1) i.addresses.length } := by
  obtain ⟨idv, addrs, it⟩ := i
  change it = 0 at h0
  subst h0
  induction k with
  | zero =>
    rw [nextCalls, Identity.next_eq]
    refine ⟨rfl, ?_⟩
    show (if (0 : Nat) < addrs.length then Identity.mk idv addrs (0 + 1)
      else Identity.mk idv addrs 0) = Identity.mk idv addrs (min (0 + 1) addrs.length)
    by_cases h : (0 : Nat) < addrs.length
    · rw [if_pos h]
      exact congrArg (Identity.mk idv addrs) (by omega)
    · rw [if_neg h]
      exact congrArg (Identity.mk idv addrs) (by omega)
  | succ k ih =>
    rw [nextCalls, ih.2, Identity.next_eq]
    refine ⟨?_, ?_⟩
    · show addrs.getD (min (k + 1) addrs.length) "" = addrs.getD (k + 1) ""
      by_cases h : k + 1 < addrs.length
      · congr 1
        omega
      · rw [getD_len_le _ _ (by omega), getD_len_le _ _ (by omega)]
    · show (if min (k + 1) addrs.length < addrs.length then
          Identity.mk idv addrs (min (k + 1) addrs.length + 1)
        else Identity.mk idv addrs (min (k + 1) addrs.length)) =
        Identity.mk idv addrs (min (k + 1 + 1) addrs.length)
      by_cases h : k + 1 < addrs.length
      · rw [if_pos (by omega)]
        exact congrArg (Identity.mk idv addrs) (by omega)
      · rw [if_neg (by omega)]
        exact congrArg (Identity.mk idv addrs) (by omega)

/-- C10: for every `Identity`, the address iterator is total and in-bounds:
`First` returns the first address when the list is non-empty and the empty
string when it is empty, and starting from a fresh cursor the successive
`Next` calls return the addresses in list order and the empty string on
every call after the list is exhausted (`List.getD k ""` is exactly that
description, and the embedding's list accesses are guarded, hence
in-bounds by construction). -/
theorem identity_iterator_inbounds (i : Identity) (h0 : i.iter = 0) :
    i.first = i.addresses.getD 0 "" ∧
    ∀ k : Nat, (nextCalls i k).1 = i.addresses.getD k "" :=
  ⟨Identity.first_eq i, fun k => (nextCalls_spec i h0 k).1⟩

/-- Witness for C10 at the identity with addresses `["a", "b"]`: `First`
returns `"a"`, the third `Next` call is past the end and returns `""`. -/
theorem identity_iterator_inbounds_witness :
    (Identity.mk 7 ["a", "b"] 0).first = "a" ∧ (nextCalls (Identity.mk 7 ["a", "b"] 0) 2).1 = "" := by
  have h := identity_iterator_inbounds (Identity.mk 7 ["a", "b"] 0) rfl
  exact ⟨h.1.trans (by decide), (h.2 2).trans (by decide)⟩

theorem tcpConnClose_closed (c : ConnModel) : ((tcpConnClose c).1).closed = true := by
  unfold tcpConnClose
  by_cases h : c.closed
  · rw [if_pos h]
    exact h
  · rw [if_neg h]
    cases c.closeErr <;> rfl

theorem tcpHostClose_closed (h : HostModel) : ((tcpHostClose h).1).closed = true := by
  unfold tcpHostClose
  by_cases hc : h.closed
  · rw [if_pos hc]
    exact hc
  · rw [if_neg hc]
    rcases he : closePeers h.peers with ⟨peers2, e⟩
    cases e
    · show (if h.hasListener = true then
          ({ h with closed := true, peers := peers2, quitClosed := true, listenerClosed := true },
            h.listenerCloseErr)
        else ({ h with closed := true, peers := peers2, quitClosed := true }, none)).1.closed = true
      split <;> rfl
    · rfl

/-- C7: closing an already-closed `TcpHost` or `TcpConn` is a no-op that
returns nil: after a first `Close`, a second `Close` returns the very same
state together with no error. -/
theorem close_idempotent :
    (∀ h : HostModel, tcpHostClose (tcpHostClose h).1 = ((tcpHostClose h).1, none)) ∧
    (∀ c : ConnModel, tcpConnClose (tcpConnClose c).1 = ((tcpConnClose c).1, none)) := by
  constructor
  · intro h
    rw [tcpHostClose, if_pos (tcpHostClose_closed h)]
  · intro c
    rw [tcpConnClose, if_pos (tcpConnClose_closed c)]

/-- C1: in the children-counting loop of the simulation driver, a round
whose count differs from the tree size is followed by another round with
the timeout doubled; a round whose count equals the tree size makes the
loop exit; and there is no bound on the number of rounds: when no round
ever returns the tree size, the loop never terminates, however much fuel it
is given. -/
theorem count_loop_retries (counts : Nat → Nat) (treeSize fuel round timeout : Nat) :
    (counts round ≠ treeSize →
      countLoop counts treeSize (fuel + 1) round timeout =
        countLoop counts treeSize fuel (round + 1) (timeout * 2)) ∧
    (counts round = treeSize →
      countLoop counts treeSize (fuel + 1) round timeout = some (round + 1, timeout * 2)) ∧
    ((∀ j, counts j ≠ treeSize) → ∀ f r t, countLoop counts treeSize f r t = none) := by
  refine ⟨fun h => by rw [countLoop, if_neg h], fun h => by rw [countLoop, if_pos h], fun h f => ?_⟩
  induction f with
  | zero => intro r t; rfl
  | succ f ih =>
    intro r t
    rw [countLoop, if_neg (h r)]
    exact ih (r + 1) (t * 2)

/-- Witness for C1: with every round returning 5 against a tree of size 3
the loop never exits (here with fuel 7); with the first round returning 3
it exits after one round with the timeout variable doubled to 2000; and a
first mismatching round recurses into a second round with timeout 2000. -/
theorem count_loop_retries_witness :
    countLoop (fun _ => 5) 3 7 0 1000 = none ∧
    countLoop (fun _ => 3) 3 1 0 1000 = some (1, 2000) ∧
    countLoop (fun _ => 5) 3 2 0 1000 = countLoop (fun _ => 5) 3 1 1 2000 :=
  ⟨(count_loop_retries (fun _ => 5) 3 0 0 0).2.2 (fun _ => by decide) 7 0 1000,
    (count_loop_retries (fun _ => 3) 3 0 0 1000).2.1 (by decide),
    (count_loop_retries (fun _ => 5) 3 1 0 1000).1 (by decide)⟩

theorem openTcpConnLoop_allFail (dial : Nat → Bool) (hd : ∀ j, dial j = false) :
    ∀ fuel i, openTcpConnLoop dial fuel i = none := by
  intro fuel
  induction fuel with
  | zero => intro i; rfl
  | succ fuel ih =>
    intro i
    rw [openTcpConnLoop, if_neg (by simp [hd i])]
    exact ih (i + 1)

theorem openTcpConnTrace_allFail (dial : Nat → Bool) (hd : ∀ j, dial j = false) :
    ∀ fuel i, countAttempts (openTcpConnTrace dial fuel i) = fuel ∧
      countSleeps (openTcpConnTrace dial fuel i) = 2 * fuel := by
  intro fuel
  induction fuel with
  | zero => intro i; exact ⟨rfl, rfl⟩
  | succ fuel ih =>
    intro i
    rw [openTcpConnTrace, if_neg (by simp [hd i])]
    have h1 := (ih (i + 1)).1
    have h2 := (ih (i + 1)).2
    simp [countAttempts, countSleeps, List.countP_cons] at h1 h2 ⊢
    omega

theorem openTcpConnLoop_firstSuccess (dial : Nat → Bool) (k : Nat) (hk : dial k = true)
    (hbefore : ∀ j, j < k → dial j = false) :
    ∀ fuel i, i ≤ k → k < i + fuel → openTcpConnLoop dial fuel i = some k := by
  intro fuel
  induction fuel with
  | zero => intro i h1 h2; omega
  | succ fuel ih =>
    intro i h1 h2
    by_cases hik : i = k
    · subst hik
      rw [openTcpConnLoop, if_pos hk]
    · rw [openTcpConnLoop, if_neg (by simp [hbefore i (by omega)])]
      exact ih (i + 1) (by omega) (by omega)

theorem openTcpConnTrace_firstSuccess (dial : Nat → Bool) (k : Nat) (hk : dial k = true)
    (hbefore : ∀ j, j < k → dial j = false) :
    ∀ fuel i, i ≤ k → k < i + fuel →
      countAttempts (openTcpConnTrace dial fuel i) = k - i + 1 ∧
      countSleeps (openTcpConnTrace dial fuel i) = 2 * (k - i) := by
  intro fuel
  induction fuel with
  | zero => intro i h1 h2; omega
  | succ fuel ih =>
    intro i h1 h2
    by_cases hik : i = k
    · subst hik
      rw [openTcpConnTrace, if_pos hk]
      constructor
      · simp [countAttempts, List.countP_cons, List.countP_nil]
      · simp [countSleeps, List.countP_cons, List.countP_nil]
    · have hf : dial i = false := hbefore i (by omega)
      rw [openTcpConnTrace, if_neg (by simp [hf])]
      have h1a := (ih (i + 1) (by omega) (by omega)).1
      have h2a := (ih (i + 1) (by omega) (by omega)).2
      simp [countAttempts, countSleeps, List.countP_cons] at h1a h2a ⊢
      omega

/-- Counterexample for C4: when every attempt fails, the events right after
the failed attempt 0 are two one-second sleeps; attempt 1 does not follow a
single 1-second backoff as the claim states. -/
theorem dial_backoff_counterexample :
    (openTcpConn (fun _ => false)).2.take 3 =
      [DialEvent.attempt 0, DialEvent.sleepSecond, DialEvent.sleepSecond] ∧
    (openTcpConn (fun _ => false)).2.take 3 ≠
      [DialEvent.attempt 0, DialEvent.sleepSecond, DialEvent.attempt 1] := by
  exact ⟨by decide, by decide⟩

/-- C4 amended: on an address whose dial fails on every attempt,
`openTcpConn` performs exactly `maxRetry = 10` dial attempts with two
one-second sleeps (2 seconds) between consecutive attempts (and after the
last failure) before returning the dial failure; if attempt `k` is the
first to succeed, the loop stops there: `k + 1` attempts, `2 * k` sleeps
and no sleeps after the success. -/
theorem dial_retry_policy (dial : Nat → Bool) :
    ((∀ j, dial j = false) →
      (openTcpConn dial).1 = none ∧
      countAttempts (openTcpConn dial).2 = 10 ∧
      countSleeps (openTcpConn dial).2 = 20) ∧
    (∀ k, dial k = true → (∀ j, j < k → dial j = false) → k < 10 →
      (openTcpConn dial).1 = some k ∧
      countAttempts (openTcpConn dial).2 = k + 1 ∧
      countSleeps (openTcpConn dial).2 = 2 * k) := by
  constructor
  · intro hd
    exact ⟨openTcpConnLoop_allFail dial hd 10 0,
      (openTcpConnTrace_allFail dial hd 10 0).1,
      (openTcpConnTrace_allFail dial hd 10 0).2⟩
  · intro k hk hb hk10
    refine ⟨openTcpConnLoop_firstSuccess dial k hk hb 10 0 (by omega) (by omega), ?_, ?_⟩
    · exact (openTcpConnTrace_firstSuccess dial k hk hb 10 0 (by omega) (by omega)).1.trans
        (by omega)
    · exact (openTcpConnTrace_firstSuccess dial k hk hb 10 0 (by omega) (by omega)).2.trans
        (by omega)

/-- Witness for C4 at the dial oracle whose attempt 3 is the first success:
4 attempts, 6 sleeps, success reported for attempt 3. -/
theorem dial_retry_policy_witness :
    (openTcpConn (fun j => decide (j = 3))).1 = some 3 ∧
    countAttempts (openTcpConn (fun j => decide (j = 3))).2 = 4 ∧
    countSleeps (openTcpConn (fun j => decide (j = 3))).2 = 6 :=
  (dial_retry_policy (fun j => decide (j = 3))).2 3 (by decide) (by decide) (by decide)

/-- Counterexample for C2: with the transport erroring during the
negotiation receive, the open side's `Open` nonetheless hands the
connection object back to the caller, unclosed, alongside the error — the
connection is neither closed nor withheld, contradicting the claim. -/
theorem negotiation_failure_open_counterexample :
    negotiateOpen (Identity.mk 1 ["a"] 0) ⟨none, Except.error GoError.ioEOF⟩
      (Identity.mk 2 ["b"] 0) =
      Except.error "Error while receiving identity during negotiation" ∧
    ¬ ((secureOpen (Identity.mk 1 ["a"] 0) (fun _ => true)
          ⟨none, Except.error GoError.ioEOF⟩ (Identity.mk 2 ["b"] 0)).connClosed = true ∧
        (secureOpen (Identity.mk 1 ["a"] 0) (fun _ => true)
          ⟨none, Except.error GoError.ioEOF⟩ (Identity.mk 2 ["b"] 0)).connReturned = false) :=
  ⟨rfl, by decide⟩

/-- C2 amended: the listen side is fail-closed — any negotiation failure
closes the connection and the handler is never invoked; the open side,
after a successful dial, reports any negotiation failure as a non-nil
error but returns the connection object unclosed alongside that error. -/
theorem negotiation_failure_handling (hostId : Identity) (env : NegotiationEnv)
    (dial : String → Bool) (id : Identity) (e : String) (a : String) :
    (negotiateListen hostId env = .error e →
      secureListenReceiver hostId env = ⟨false, true, none⟩) ∧
    (firstDialableAddress dial id.addresses = some a →
      negotiateOpen hostId env id = .error e →
      secureOpen hostId dial env id = ⟨true, false, some e⟩) := by
  constructor
  · intro h
    rw [secureListenReceiver, h]
  · intro h1 h2
    rw [secureOpen, h1, h2]

/-- Witness for C2 at a negotiation whose send fails: the listen side drops
the connection without invoking the handler; the open side (address `"b"`
dials fine) returns the connection together with the error. -/
theorem negotiation_failure_handling_witness :
    secureListenReceiver (Identity.mk 1 ["a"] 0)
      ⟨some GoError.ioEOF, Except.error GoError.ioEOF⟩ = ⟨false, true, none⟩ ∧
    secureOpen (Identity.mk 1 ["a"] 0) (fun _ => true)
      ⟨some GoError.ioEOF, Except.error GoError.ioEOF⟩ (Identity.mk 2 ["b"] 0) =
      ⟨true, false, some "Error while sending indentity during negotiation"⟩ :=
  ⟨(negotiation_failure_handling (Identity.mk 1 ["a"] 0)
      ⟨some GoError.ioEOF, Except.error GoError.ioEOF⟩ (fun _ => true) (Identity.mk 2 ["b"] 0)
      "Error while sending indentity during negotiation" "b").1 rfl,
    (negotiation_failure_handling (Identity.mk 1 ["a"] 0)
      ⟨some GoError.ioEOF, Except.error GoError.ioEOF⟩ (fun _ => true) (Identity.mk 2 ["b"] 0)
      "Error while sending indentity during negotiation" "b").2 rfl rfl⟩

/-- C3: when some address dials (the transport connection succeeds) and the
identity exchange completes — the send succeeded and a well-typed Identity
message was received — `Open` returns an error exactly when the received
identity's id differs from the id of the identity the caller dialed. -/
theorem open_id_check (hostId : Identity) (dial : String → Bool) (env : NegotiationEnv)
    (id : Identity) (m : ApplicationMessage) (a : String) :
    firstDialableAddress dial id.addresses = some a →
    env.sendErr = none → env.recv = .ok m → m.msgType = .identityType →
    ((secureOpen hostId dial env id).err ≠ none ↔ m.identityMsg.id ≠ id.id) := by
  intro h1 h2 h3 h4
  have hlisten : negotiateListen hostId env = .ok m.identityMsg := by
    rw [negotiateListen, h2, h3]
    show (if m.msgType ≠ MsgTypeId.identityType then
        Except.error "Received wrong type during negotiation"
      else Except.ok m.identityMsg) = Except.ok m.identityMsg
    rw [if_neg (by simp [h4])]
  by_cases hid : m.identityMsg.id = id.id
  · have hop : negotiateOpen hostId env id = .ok m.identityMsg := by
      rw [negotiateOpen, hlisten]
      show (if m.identityMsg.id ≠ id.id then
          Except.error "Identity received during negotiation is wrong. WARNING"
        else Except.ok m.identityMsg) = Except.ok m.identityMsg
      rw [if_neg (by simp [hid])]
    rw [secureOpen, h1, hop]
    simp [hid]
  · have hop : negotiateOpen hostId env id =
        .error "Identity received during negotiation is wrong. WARNING" := by
      rw [negotiateOpen, hlisten]
      show (if m.identityMsg.id ≠ id.id then
          Except.error "Identity received during negotiation is wrong. WARNING"
        else Except.ok m.identityMsg) =
        Except.error "Identity received during negotiation is wrong. WARNING"
      rw [if_pos (by simp [hid])]
    rw [secureOpen, h1, hop]
    simp [hid]

/-- Witness for C3: a peer answering under id 5 when id 2 was dialed makes
`Open` return an error (the id-mismatch iff instance at that input). -/
theorem open_id_check_witness :
    ((secureOpen (Identity.mk 1 ["h"] 0) (fun _ => true)
        ⟨none, Except.ok ⟨MsgTypeId.identityType, Identity.mk 5 [] 0, ""⟩⟩
        (Identity.mk 2 ["b"] 0)).err ≠ none ↔
      (Identity.mk 5 [] 0).id ≠ (Identity.mk 2 ["b"] 0).id) :=
  open_id_check (Identity.mk 1 ["h"] 0) (fun _ => true)
    ⟨none, Except.ok ⟨MsgTypeId.identityType, Identity.mk 5 [] 0, ""⟩⟩
    (Identity.mk 2 ["b"] 0) ⟨MsgTypeId.identityType, Identity.mk 5 [] 0, ""⟩ "b"
    rfl rfl rfl rfl

theorem firstDialableAddress_spec (dial : String → Bool) :
    ∀ l : List String,
      (firstDialableAddress dial l = none ↔ ∀ a, a ∈ l → dial a = false) ∧
      (∀ a, firstDialableAddress dial l = some a →
        dial a = true ∧ ∃ i, ∃ hi : i < l.length, l.get ⟨i, hi⟩ = a ∧
          ∀ j, ∀ hj : j < l.length, j < i → dial (l.get ⟨j, hj⟩) = false) := by
  intro l
  induction l with
  | nil =>
    refine ⟨by simp [firstDialableAddress], fun a h => ?_⟩
    simp [firstDialableAddress] at h
  | cons b rest ih =>
    by_cases hb : dial b = true
    · constructor
      · constructor
        · intro h
          rw [firstDialableAddress, if_pos hb] at h
          cases h
        · intro h
          exact absurd (h b (List.mem_cons_self b rest)) (by simp [hb])
      · intro a ha
        rw [firstDialableAddress, if_pos hb] at ha
        injection ha with hba
        subst hba
        refine ⟨hb, 0, by simp, rfl, ?_⟩
        intro j hj hj0
        omega
    · rw [Bool.not_eq_true] at hb
      have heq : firstDialableAddress dial (b :: rest) = firstDialableAddress dial rest := by
        rw [firstDialableAddress, if_neg (by simp [hb])]
      constructor
      · rw [heq, ih.1]
        constructor
        · intro h a ha
          rcases List.mem_cons.mp ha with rfl | ha2
          · exact hb
          · exact h a ha2
        · intro h a ha
          exact h a (List.mem_cons_of_mem b ha)
      · intro a ha
        rw [heq] at ha
        obtain ⟨hda, i, hi, hget, hbef⟩ := ih.2 a ha
        refine ⟨hda, i + 1, by simpa using Nat.succ_lt_succ hi, hget, ?_⟩
        intro j hj hji
        cases j with
        | zero => exact hb
        | succ j2 => exact hbef j2 (by simpa using Nat.lt_of_succ_lt_succ hj) (by omega)

/-- C8: `Open` connects via the first dialable address in list order (all
earlier addresses fail); when at least one address dials, a connection is
returned and the final error is determined by the negotiation alone, so
the earlier dial failures are never surfaced; the dial-failure error is
returned, with no connection, exactly when every address fails. -/
theorem secure_open_failover (hostId : Identity) (dial : String → Bool)
    (env : NegotiationEnv) (id : Identity) :
    (∀ a, firstDialableAddress dial id.addresses = some a →
      dial a = true ∧
      (∃ i, ∃ hi : i < id.addresses.length, id.addresses.get ⟨i, hi⟩ = a ∧
        ∀ j, ∀ hj : j < id.addresses.length, j < i →
          dial (id.addresses.get ⟨j, hj⟩) = false) ∧
      secureOpen hostId dial env id =
        ⟨true, false,
          match negotiateOpen hostId env id with
          | .error e => some e
          | .ok _ => none⟩) ∧
    ((∀ a, a ∈ id.addresses → dial a = false) →
      secureOpen hostId dial env id =
        ⟨false, false, some "Could not connect to any address tied to this identity"⟩) := by
  constructor
  · intro a ha
    obtain ⟨hda, hfirst⟩ := (firstDialableAddress_spec dial id.addresses).2 a ha
    refine ⟨hda, hfirst, ?_⟩
    rw [secureOpen, ha]
    cases hne : negotiateOpen hostId env id <;> rfl
  · intro h
    rw [secureOpen, (firstDialableAddress_spec dial id.addresses).1.mpr h]

/-- Witness for C8: identity with addresses `["x", "y"]` where only `"y"`
dials: `Open` succeeds (connection returned, no error) even though the
first address failed. -/
theorem secure_open_failover_witness :
    secureOpen (Identity.mk 1 ["h"] 0) (fun a => decide (a = "y"))
      ⟨none, Except.ok ⟨MsgTypeId.identityType, Identity.mk 2 [] 0, ""⟩⟩
      (Identity.mk 2 ["x", "y"] 0) = ⟨true, false, none⟩ :=
  ((secure_open_failover (Identity.mk 1 ["h"] 0) (fun a => decide (a = "y"))
      ⟨none, Except.ok ⟨MsgTypeId.identityType, Identity.mk 2 [] 0, ""⟩⟩
      (Identity.mk 2 ["x", "y"] 0)).1 "y" (by decide)).2.2.trans (by decide)

/-- Counterexample for C5: a fault raised inside decode (a panic in
`UnmarshalBinary`) is recovered by the deferred handler, which only prints;
`Receive` then returns its zero-valued results — an empty message and a
nil error — so the caller is not given a non-nil error. -/
theorem receive_panic_counterexample :
    (tcpConnReceive ⟨false⟩ (Except.ok [0, 1, 2]) (fun _ => .panicked "boom") "r").err = none ∧
    ¬ ((tcpConnReceive ⟨false⟩ (Except.ok [0, 1, 2])
        (fun _ => .panicked "boom") "r").err ≠ none) :=
  ⟨rfl, fun h => h rfl⟩

/-- C5 amended: a read error is reported as the classified non-nil error; a
decode that returns an error is reported as a non-nil wrapped unmarshal
error; a fault (panic) raised inside decode is caught but `Receive` then
returns the zero message with a nil error; in every case the connection
state is unchanged, so the connection and its host stay usable for
subsequent receives. -/
theorem receive_decode_fault (c : TcpConnState) (buf : List Nat)
    (decode : List Nat → DecodeOutcome) (remote : String) (e : GoError) (s : String) :
    (tcpConnReceive c (Except.error e) decode remote).err = some (handleError e) ∧
    (decode buf = .err s →
      (tcpConnReceive c (Except.ok buf) decode remote).err =
        some (.str ("Error unmarshaling message type: " ++ s))) ∧
    (decode buf = .panicked s →
      (tcpConnReceive c (Except.ok buf) decode remote).err = none ∧
      (tcpConnReceive c (Except.ok buf) decode remote).msg = none) ∧
    (∀ r : Except GoError (List Nat), (tcpConnReceive c r decode remote).connAfter = c) := by
  refine ⟨rfl, fun h => ?_, fun h => ?_, fun r => ?_⟩
  · rw [tcpConnReceive, h]
  · rw [tcpConnReceive, h]
    exact ⟨rfl, rfl⟩
  · cases r with
    | error e2 => rfl
    | ok b => cases hd : decode b <;> rw [tcpConnReceive, hd]

/-- Witness for C5: an unknown-type decode error is wrapped and reported;
the panic outcome yields a nil error; the connection state is unchanged. -/
theorem receive_decode_fault_witness :
    (tcpConnReceive ⟨false⟩ (Except.ok [7]) (fun _ => DecodeOutcome.err "unknown type") "r").err =
      some (.str ("Error unmarshaling message type: " ++ "unknown type")) ∧
    (tcpConnReceive ⟨false⟩ (Except.ok [7]) (fun _ => DecodeOutcome.err "unknown type") "r").connAfter =
      (⟨false⟩ : TcpConnState) :=
  ⟨(receive_decode_fault ⟨false⟩ [7] (fun _ => DecodeOutcome.err "unknown type") "r"
      GoError.ioEOF "unknown type").2.1 rfl,
    (receive_decode_fault ⟨false⟩ [7] (fun _ => DecodeOutcome.err "unknown type") "r"
      GoError.ioEOF "unknown type").2.2.2 (Except.ok [7])⟩

theorem tcpConnClose_ok (c : ConnModel) (h : c.closeErr = none) : (tcpConnClose c).2 = none := by
  rw [tcpConnClose]
  split
  · rfl
  · rw [h]

theorem closePeers_ok (l : List ConnModel) (hok : ∀ c ∈ l, c.closeErr = none) :
    (closePeers l).2 = none ∧ ∀ c ∈ (closePeers l).1, c.closed = true := by
  induction l with
  | nil =>
    refine ⟨rfl, fun c hc => ?_⟩
    simp [closePeers] at hc
  | cons c rest ih =>
    obtain ⟨h2, h1⟩ := ih fun d hd => hok d (List.mem_cons_of_mem c hd)
    have he : (tcpConnClose c).2 = none := tcpConnClose_ok c (hok c (List.mem_cons_self c rest))
    have hcl : (tcpConnClose c).1.closed = true := tcpConnClose_closed c
    rcases hcc : tcpConnClose c with ⟨c2, e⟩
    rw [hcc] at he hcl
    change e = none at he
    subst he
    change c2.closed = true at hcl
    rw [closePeers, hcc]
    refine ⟨h2, fun d hd => ?_⟩
    rcases List.mem_cons.mp hd with rfl | hd2
    · exact hcl
    · exact h1 d hd2

/-- C6 amended: when every tracked connection closes without an underlying
error, `Close` on a not-yet-closed host sets the closed flag, closes every
tracked connection, closes the quit channel and finally closes the
listening socket, returning the listener's close result; but when some
connection's close errors, `Close` returns that error at once, leaving the
remaining connections, the quit channel and the listener untouched. -/
theorem host_close_all_ok (h : HostModel) (hc : h.closed = false)
    (hok : ∀ c ∈ h.peers, c.closeErr = none) :
    (tcpHostClose h).1.closed = true ∧
    (∀ c ∈ (tcpHostClose h).1.peers, c.closed = true) ∧
    (tcpHostClose h).1.quitClosed = true ∧
    (h.hasListener = true → (tcpHostClose h).1.listenerClosed = true) ∧
    (tcpHostClose h).2 = (if h.hasListener = true then h.listenerCloseErr else none) := by
  obtain ⟨hp2, hp1⟩ := closePeers_ok h.peers hok
  rcases hpp : closePeers h.peers with ⟨peers2, e⟩
  rw [hpp] at hp2 hp1
  change e = none at hp2
  subst hp2
  rw [tcpHostClose, if_neg (by simp [hc])]
  simp only [hpp]
  by_cases hl : h.hasListener = true
  · rw [if_pos hl, if_pos hl]
    exact ⟨rfl, hp1, rfl, fun _ => rfl, rfl⟩
  · rw [if_neg hl, if_neg hl]
    exact ⟨rfl, hp1, rfl, fun hx => absurd hx hl, rfl⟩

/-- Witness for C6 at a host with one cleanly-closing tracked connection
and a listener: everything gets closed and no error is returned. -/
theorem host_close_all_ok_witness :
    (∀ c ∈ (tcpHostClose ⟨false, [⟨false, none⟩], false, true, false, none⟩).1.peers,
      c.closed = true) ∧
    (tcpHostClose ⟨false, [⟨false, none⟩], false, true, false, none⟩).1.quitClosed = true ∧
    (tcpHostClose ⟨false, [⟨false, none⟩], false, true, false, none⟩).1.listenerClosed = true :=
  ⟨(host_close_all_ok ⟨false, [⟨false, none⟩], false, true, false, none⟩ rfl (by decide)).2.1,
    (host_close_all_ok ⟨false, [⟨false, none⟩], false, true, false, none⟩ rfl (by decide)).2.2.1,
    (host_close_all_ok ⟨false, [⟨false, none⟩], false, true, false, none⟩ rfl
      (by decide)).2.2.2.1 rfl⟩

/-- Counterexample for C6: a not-yet-closed host with two tracked
connections where the first close errors: `Close` returns the classified
error immediately — the second connection stays open, the quit channel is
never closed and the listener is never closed, contradicting the claim
that every tracked connection is closed and the accept loop and listener
are then shut down. -/
theorem host_close_counterexample :
    tcpHostClose ⟨false, [⟨false, some (GoError.netError "boom" false false)⟩, ⟨false, none⟩],
        false, true, false, none⟩ =
      (⟨true, [⟨true, some (GoError.netError "boom" false false)⟩, ⟨false, none⟩],
        false, true, false, none⟩, some ErrUnknown) ∧
    ¬ ((∀ c ∈ (tcpHostClose ⟨false,
          [⟨false, some (GoError.netError "boom" false false)⟩, ⟨false, none⟩],
          false, true, false, none⟩).1.peers, c.closed = true) ∧
        (tcpHostClose ⟨false, [⟨false, some (GoError.netError "boom" false false)⟩, ⟨false, none⟩],
          false, true, false, none⟩).1.quitClosed = true) := by
  exact ⟨by decide, by decide⟩

/-- Counterexample for C9: a run whose working tree does not use every
roster identity (`UsesList` false) but whose config does not set
SingleHost: the driver only logs the aliasing and runs CloseAll over the
original working tree — no deduplicated tree is built. -/
theorem closeall_dedup_counterexample :
    closeAllSetup false false false = ⟨TreeChoice.workingTree, true, false⟩ ∧
    ¬ ((closeAllSetup false false false).closeTree = TreeChoice.rebuiltFromRoster) :=
  ⟨rfl, by decide⟩

/-- C9 amended: the CloseAll tree is the deduplicated tree rebuilt from the
Roster exactly when the `SingleHost` config flag is set (regardless of
whether the working tree aliases identities); a working tree that does not
use every roster identity only provokes an error log; and a failure to
create the CloseAll protocol instance aborts the run via `log.Fatal`
(checked, in the code, only after `pi.Start()` was already invoked). -/
theorem closeall_tree_choice (usesList singleHost createErr : Bool) :
    ((closeAllSetup usesList singleHost createErr).closeTree =
      if singleHost = true then TreeChoice.rebuiltFromRoster else TreeChoice.workingTree) ∧
    ((closeAllSetup usesList singleHost createErr).aliasErrorLogged = !usesList) ∧
    (createErr = true → (closeAllSetup usesList singleHost createErr).aborted = true) :=
  ⟨rfl, rfl, fun hx => hx⟩

/-- Witness for C9: with SingleHost set and a protocol-creation error, the
rebuilt tree is used and the run aborts. -/
theorem closeall_tree_choice_witness :
    (closeAllSetup false true true).closeTree = TreeChoice.rebuiltFromRoster ∧
    (closeAllSetup false true true).aborted = true :=
  ⟨((closeall_tree_choice false true true).1).trans (by decide),
    (closeall_tree_choice false true true).2.2 rfl⟩
